import Mathlib

/-
Verification of the nilAI gateway against its specification.

This file gives a shallow embedding of the parts of the code base that the
checked properties are about:

* the shared key-value store and the atomic rate-limit script
  (`src/nilai-api/src/nilai_api/rate_limiting.py`),
* the capability-token usage-limit and document-binding extractors
  (`src/nilai-api/src/nilai_api/auth/nuc_helpers/usage.py` and
  `nildb_document.py`),
* the response-signing tail of the chat-completion handler and the
  tool-workflow usage aggregation
  (`src/nilai-api/src/nilai_api/routers/private.py`,
  `src/nilai-api/src/nilai_api/handlers/tools/tool_router.py`,
  `src/nilai-api/src/nilai_api/crypto.py`),
* the message adapter (`src/packages/nilai-common/src/nilai_common/api_model.py`).

Machine integers are modelled as `Int`/`Nat`; fallible code returns
`Except`/`Option`; the Redis client is modelled as an explicit state
(a keyed store of integer counters with millisecond TTLs) together with a
log of the commands that were executed, so that frame conditions
("no command was issued") are provable.
-/

namespace NilAI

/-! ## The shared key-value store (Redis model)

An entry holds an integer counter (the only values this code ever stores)
and its remaining time-to-live in milliseconds; `none` means the key has no
expiry.  `PTTL` follows the Redis convention: `-2` for a missing key, `-1`
for a key without expiry, otherwise the remaining milliseconds. -/

structure KVEntry where
  value : Int
  ttl : Option Int
deriving DecidableEq, Repr

structure KV where
  store : List (String × KVEntry)
  log : List String
deriving DecidableEq, Repr

def setEntry (st : List (String × KVEntry)) (k : String) (e : KVEntry) :
    List (String × KVEntry) :=
  match st with
  | [] => [(k, e)]
  | (k', e') :: rest => if k' = k then (k, e) :: rest else (k', e') :: setEntry rest k e

def lookupEntry (st : List (String × KVEntry)) (k : String) : Option KVEntry :=
  match st with
  | [] => none
  | (k', e') :: rest => if k' = k then some e' else lookupEntry rest k

/-- The integer a `GET` of the key reads, with missing keys read as `0`
(the script wraps `GET` in `tonumber(... or "0")`). -/
def KV.readNum (kv : KV) (k : String) : Int :=
  match lookupEntry kv.store k with
  | none => 0
  | some e => e.value

/-- `PTTL key` with the Redis return-value convention. -/
def KV.pttlOf (kv : KV) (k : String) : Int :=
  match lookupEntry kv.store k with
  | none => -2
  | some e => match e.ttl with
    | none => -1
    | some t => t

def KV.getCmd (kv : KV) (k : String) : Int × KV :=
  (kv.readNum k, ⟨kv.store, kv.log ++ ["GET " ++ k]⟩)

def KV.pttlCmd (kv : KV) (k : String) : Int × KV :=
  (kv.pttlOf k, ⟨kv.store, kv.log ++ ["PTTL " ++ k]⟩)

/-- `INCR key`: increments the counter keeping its TTL; a missing key is
created as `1` with no expiry.  Returns the new value. -/
def KV.incrCmd (kv : KV) (k : String) : Int × KV :=
  match lookupEntry kv.store k with
  | none => (1, ⟨setEntry kv.store k ⟨1, none⟩, kv.log ++ ["INCR " ++ k]⟩)
  | some e =>
      (e.value + 1, ⟨setEntry kv.store k ⟨e.value + 1, e.ttl⟩, kv.log ++ ["INCR " ++ k]⟩)

/-- `DECR key`: decrements the counter keeping its TTL; a missing key is
created as `-1` with no expiry.  Returns the new value. -/
def KV.decrCmd (kv : KV) (k : String) : Int × KV :=
  match lookupEntry kv.store k with
  | none => (-1, ⟨setEntry kv.store k ⟨-1, none⟩, kv.log ++ ["DECR " ++ k]⟩)
  | some e =>
      (e.value - 1, ⟨setEntry kv.store k ⟨e.value - 1, e.ttl⟩, kv.log ++ ["DECR " ++ k]⟩)

/-- `SET key v PX t` (fresh expiry) respectively `SET key v` (clears any expiry). -/
def KV.setCmd (kv : KV) (k : String) (v : Int) (px : Option Int) : KV :=
  ⟨setEntry kv.store k ⟨v, px⟩, kv.log ++ ["SET " ++ k]⟩

/-! ## The atomic rate-limit script (`LUA_RATE_LIMIT_SCRIPT`) -/

/-- `LUA_RATE_LIMIT_SCRIPT` of `rate_limiting.py`, parameterized by
`(key, limit, expire_time)` and run atomically against the store:

    local current = tonumber(redis.call('get', key) or "0")
    if current > 0 then
        if current + 1 > limit then return redis.call("PTTL", key)
        else redis.call("INCR", key); return 0 end
    else
        if expire_time > 0 then redis.call("SET", key, 1, "px", expire_time)
        else redis.call("SET", key, 1) end
        return 0
    end
-/
def rate_limit_script (kv : KV) (key : String) (limit : Int) (expire_time : Int) :
    Int × KV :=
  let (current, kv) := kv.getCmd key
  if current > 0 then
    if current + 1 > limit then
      kv.pttlCmd key
    else
      let (_, kv) := kv.incrCmd key
      (0, kv)
  else
    if expire_time > 0 then
      (0, kv.setCmd key 1 (some expire_time))
    else
      (0, kv.setCmd key 1 none)

/-- An HTTP error as raised by the rate limiter: status, detail and the
optional `Retry-After` header value (milliseconds). -/
structure HTTPError where
  status : Nat
  detail : String
  retryAfter : Option Int
deriving DecidableEq, Repr

/-- `RateLimit.check_bucket`: skip entirely when no limit is configured,
otherwise run the atomic script and raise 429 with `Retry-After` when the
returned value is positive. -/
def check_bucket (kv : KV) (key : String) (times : Option Int) (milliseconds : Int) :
    KV × Option HTTPError :=
  match times with
  | none => (kv, none)
  | some limit =>
    let (expire, kv) := rate_limit_script kv key limit milliseconds
    if expire > 0 then
      (kv, some ⟨429, "Too Many Requests", some expire⟩)
    else
      (kv, none)

/-! ## Store lemmas -/

theorem mem_setEntry {st : List (String × KVEntry)} {k k' : String} {e e' : KVEntry}
    (h : (k', e') ∈ setEntry st k e) : (k' = k ∧ e' = e) ∨ (k', e') ∈ st := by
  induction st with
  | nil =>
    simp only [setEntry, List.mem_singleton] at h
    exact Or.inl ⟨congrArg Prod.fst h, congrArg Prod.snd h⟩
  | cons p rest ih =>
    obtain ⟨k₀, e₀⟩ := p
    simp only [setEntry] at h
    split at h
    · rcases List.mem_cons.1 h with h1 | h1
      · exact Or.inl ⟨congrArg Prod.fst h1, congrArg Prod.snd h1⟩
      · exact Or.inr (List.mem_cons_of_mem _ h1)
    · rcases List.mem_cons.1 h with h1 | h1
      · exact Or.inr (h1 ▸ List.mem_cons_self _ _)
      · rcases ih h1 with h2 | h2
        · exact Or.inl h2
        · exact Or.inr (List.mem_cons_of_mem _ h2)

theorem lookupEntry_mem {st : List (String × KVEntry)} {k : String} {e : KVEntry}
    (h : lookupEntry st k = some e) : (k, e) ∈ st := by
  induction st with
  | nil => simp [lookupEntry] at h
  | cons p rest ih =>
    obtain ⟨k₀, e₀⟩ := p
    simp only [lookupEntry] at h
    split at h
    · rename_i heq
      cases h
      exact heq ▸ List.mem_cons_self _ _
    · exact List.mem_cons_of_mem _ (ih h)

/-! ## Time passage and reachable bucket states (for C4)

`KVEntry.decay` models the passage of `d` milliseconds over one entry: keys
without expiry persist; a key whose remaining TTL does not exceed `d`
expires (is removed); otherwise the TTL shrinks. -/

def KVEntry.decay (e : KVEntry) (d : Nat) : Option KVEntry :=
  match e.ttl with
  | none => some e
  | some t => if t ≤ (d : Int) then none else some ⟨e.value, some (t - d)⟩

def decayStore (st : List (String × KVEntry)) (d : Nat) : List (String × KVEntry) :=
  match st with
  | [] => []
  | (k, e) :: rest =>
    match e.decay d with
    | none => decayStore rest d
    | some e' => (k, e') :: decayStore rest d

def KV.decay (kv : KV) (d : Nat) : KV := ⟨decayStore kv.store d, kv.log⟩

theorem mem_decayStore {st : List (String × KVEntry)} {d : Nat} {k : String} {e' : KVEntry}
    (h : (k, e') ∈ decayStore st d) : ∃ e : KVEntry, (k, e) ∈ st ∧ e.decay d = some e' := by
  induction st with
  | nil => simp [decayStore] at h
  | cons p rest ih =>
    obtain ⟨k₀, e₀⟩ := p
    simp only [decayStore] at h
    split at h
    · obtain ⟨e, he, hd⟩ := ih h
      exact ⟨e, List.mem_cons_of_mem _ he, hd⟩
    · rename_i e₁ hdec
      rcases List.mem_cons.1 h with h1 | h1
      · have hk : k = k₀ := congrArg Prod.fst h1
        have he : e' = e₁ := congrArg Prod.snd h1
        subst hk
        exact ⟨e₀, List.mem_cons_self _ _, by rw [hdec, he]⟩
      · obtain ⟨e, he, hd⟩ := ih h1
        exact ⟨e, List.mem_cons_of_mem _ he, hd⟩

/-- States of the shared store reachable, for the bucket at `key` with fixed
window `window`, from the empty store, under: invocations of the atomic
script for this bucket (with any limit), invocations of the script for other
keys (other buckets, with any limit and window), `INCR`/`DECR` on other keys
(the concurrency gauge), and the passage of time. -/
inductive BucketReach (key : String) (window : Int) : KV → Prop
  | init : BucketReach key window ⟨[], []⟩
  | self_step (limit : Int) (kv : KV) :
      BucketReach key window kv →
      BucketReach key window (rate_limit_script kv key limit window).2
  | other_step (k : String) (limit w : Int) (kv : KV) :
      k ≠ key → BucketReach key window kv →
      BucketReach key window (rate_limit_script kv k limit w).2
  | other_incr (k : String) (kv : KV) :
      k ≠ key → BucketReach key window kv →
      BucketReach key window (kv.incrCmd k).2
  | other_decr (k : String) (kv : KV) :
      k ≠ key → BucketReach key window kv →
      BucketReach key window (kv.decrCmd k).2
  | decay_step (d : Nat) (kv : KV) :
      BucketReach key window kv →
      BucketReach key window (kv.decay d)

/-- TTL shape maintained for a bucket with window `window`: a positive window
always comes with a live TTL bounded by the window; a non-positive window
(the "forever" buckets) never has an expiry. -/
def ttlOk (window : Int) (e : KVEntry) : Prop :=
  match e.ttl with
  | none => window ≤ 0
  | some t => 0 < t ∧ t ≤ window

def bucketInv (key : String) (window : Int) (kv : KV) : Prop :=
  ∀ e : KVEntry, (key, e) ∈ kv.store → ttlOk window e

/-- The store after one script invocation is one of: unchanged (deny), the
existing counter incremented with its TTL kept, or a fresh counter `1` with
the window as TTL (`none` for non-positive windows). -/
theorem rate_limit_script_store (kv : KV) (key : String) (limit window : Int) :
    (rate_limit_script kv key limit window).2.store = kv.store ∨
    (∃ e : KVEntry, lookupEntry kv.store key = some e ∧
      (rate_limit_script kv key limit window).2.store =
        setEntry kv.store key ⟨e.value + 1, e.ttl⟩) ∨
    (rate_limit_script kv key limit window).2.store =
      setEntry kv.store key ⟨1, if window > 0 then some window else none⟩ := by
  simp only [rate_limit_script, KV.getCmd]
  by_cases hpos : kv.readNum key > 0
  · rw [if_pos hpos]
    by_cases hgt : kv.readNum key + 1 > limit
    · rw [if_pos hgt]
      left
      rfl
    · rw [if_neg hgt]
      cases hl : lookupEntry kv.store key with
      | none =>
        exfalso
        simp [KV.readNum, hl] at hpos
      | some e =>
        right; left
        refine ⟨e, rfl, ?_⟩
        have hv : kv.readNum key = e.value := by simp [KV.readNum, hl]
        simp [KV.incrCmd, hl, hv]
  · rw [if_neg hpos]
    right; right
    by_cases hw : window > 0
    · rw [if_pos hw]
      simp [KV.setCmd, hw]
    · rw [if_neg hw]
      simp [KV.setCmd, hw]

theorem bucketInv_script_self {key : String} {window : Int} {kv : KV} (limit : Int)
    (h : bucketInv key window kv) :
    bucketInv key window (rate_limit_script kv key limit window).2 := by
  intro e' he'
  rcases rate_limit_script_store kv key limit window with hs | ⟨e, hl, hs⟩ | hs
  · rw [hs] at he'
    exact h e' he'
  · rw [hs] at he'
    rcases mem_setEntry he' with ⟨_, rfl⟩ | hm
    · exact h e (lookupEntry_mem hl)
    · exact h _ hm
  · rw [hs] at he'
    rcases mem_setEntry he' with ⟨_, rfl⟩ | hm
    · by_cases hw : window > 0
      · simp only [ttlOk, if_pos hw]
        omega
      · simp only [ttlOk, if_neg hw]
        omega
    · exact h _ hm

theorem bucketInv_setEntry_other {key k : String} {window : Int} {st : List (String × KVEntry)}
    {log : List String} {e : KVEntry} (hk : k ≠ key)
    (h : bucketInv key window ⟨st, log⟩) {log' : List String} :
    bucketInv key window ⟨setEntry st k e, log'⟩ := by
  intro e' he'
  rcases mem_setEntry he' with ⟨hkk, _⟩ | hm
  · exact absurd hkk.symm hk
  · exact h _ hm

theorem bucketInv_script_other {key k : String} {window limit w : Int} {kv : KV}
    (hk : k ≠ key) (h : bucketInv key window kv) :
    bucketInv key window (rate_limit_script kv k limit w).2 := by
  intro e' he'
  rcases rate_limit_script_store kv k limit w with hs | ⟨e, _, hs⟩ | hs
  · rw [hs] at he'
    exact h e' he'
  · rw [hs] at he'
    rcases mem_setEntry he' with ⟨hkk, _⟩ | hm
    · exact absurd hkk.symm hk
    · exact h _ hm
  · rw [hs] at he'
    rcases mem_setEntry he' with ⟨hkk, _⟩ | hm
    · exact absurd hkk.symm hk
    · exact h _ hm

theorem bucketReach_inv {key : String} {window : Int} {kv : KV}
    (h : BucketReach key window kv) : bucketInv key window kv := by
  induction h with
  | init => intro e he; simp at he
  | self_step limit kv _ ih => exact bucketInv_script_self limit ih
  | other_step k limit w kv hk _ ih => exact bucketInv_script_other hk ih
  | other_incr k kv hk _ ih =>
    simp only [KV.incrCmd]
    split
    · exact bucketInv_setEntry_other hk ih
    · exact bucketInv_setEntry_other hk ih
  | other_decr k kv hk _ ih =>
    simp only [KV.decrCmd]
    split
    · exact bucketInv_setEntry_other hk ih
    · exact bucketInv_setEntry_other hk ih
  | decay_step d kv _ ih =>
    intro e' he'
    obtain ⟨e, hm, hd⟩ := mem_decayStore he'
    have := ih e hm
    simp only [KVEntry.decay] at hd
    split at hd
    · cases hd
      exact this
    · rename_i t ht
      split at hd
      · cases hd
      · cases hd
        rename_i ht _
        have h2 : 0 < t ∧ t ≤ window := by
          have h3 := this
          simp only [ttlOk, ht] at h3
          exact h3
        simp only [ttlOk]
        omega

/-- A positive script return value can only come from the `PTTL` branch, so
the key then holds an entry whose TTL equals the returned value. -/
theorem rate_limit_script_pos_ret {kv : KV} {key : String} {limit window : Int}
    (h : 0 < (rate_limit_script kv key limit window).1) :
    ∃ (e : KVEntry) (t : Int), lookupEntry kv.store key = some e ∧ e.ttl = some t ∧
      (rate_limit_script kv key limit window).1 = t := by
  simp only [rate_limit_script, KV.getCmd] at h ⊢
  by_cases hpos : kv.readNum key > 0
  · rw [if_pos hpos] at h ⊢
    by_cases hgt : kv.readNum key + 1 > limit
    · rw [if_pos hgt] at h ⊢
      simp only [KV.pttlCmd, KV.pttlOf] at h ⊢
      cases hl : lookupEntry kv.store key with
      | none =>
        rw [hl] at h
        norm_num at h
      | some e =>
        rw [hl] at h
        dsimp only at h
        cases ht : e.ttl with
        | none =>
          rw [ht] at h
          norm_num at h
        | some t =>
          refine ⟨e, t, rfl, ht, ?_⟩
          show (match e.ttl with | none => (-1 : Int) | some t => t) = t
          rw [ht]
    · rw [if_neg hgt] at h
      norm_num at h
  · rw [if_neg hpos] at h
    split at h <;> norm_num at h

/-- C4 (amended): a bucket check denies exactly when the atomic script
returns a value strictly greater than zero, and then the request is rejected
with HTTP 429 carrying a `Retry-After` equal to the returned value, which is
strictly positive and at most the bucket's window.  Because the `PTTL` of a
key without expiry is `-1` (not `> 0`), the no-expiry (window 0) buckets such
as `user:{user_id}` and `web_search:{user_id}` never deny: with window 0 the
conclusion `0 < r ≤ 0` is impossible, so no denial can occur in any reachable
state. -/
theorem C4_amended (kv : KV) (key : String) (limit window : Int)
    (hreach : BucketReach key window kv) (e : HTTPError)
    (hden : (check_bucket kv key (some limit) window).2 = some e) :
    e.status = 429 ∧ e.detail = "Too Many Requests" ∧
      ∃ r : Int, e.retryAfter = some r ∧ 0 < r ∧ r ≤ window := by
  have hinv := bucketReach_inv hreach
  rcases hrl : rate_limit_script kv key limit window with ⟨expire, kv'⟩
  simp only [check_bucket, hrl] at hden
  by_cases hp : expire > 0
  · rw [if_pos hp] at hden
    cases hden
    refine ⟨rfl, rfl, expire, rfl, hp, ?_⟩
    have hp1 : 0 < (rate_limit_script kv key limit window).1 := by
      rw [hrl]
      exact hp
    obtain ⟨en, t, hl, ht, hret⟩ := rate_limit_script_pos_ret hp1
    have hok := hinv en (lookupEntry_mem hl)
    simp only [ttlOk, ht] at hok
    rw [hrl] at hret
    simp only at hret
    omega
  · rw [if_neg hp] at hden
    cases hden

/-- Witness for C4 (amended): the minute bucket with limit 1 and window
60000 ms denies the second request with `Retry-After` 60000. -/
theorem C4_amended_witness :
    (429 : Nat) = 429 ∧ "Too Many Requests" = "Too Many Requests" ∧
      ∃ r : Int, some (60000 : Int) = some r ∧ 0 < r ∧ r ≤ 60000 :=
  C4_amended (rate_limit_script ⟨[], []⟩ "minute:u" 1 60000).2 "minute:u" 1 60000
    (BucketReach.self_step 1 ⟨[], []⟩ BucketReach.init)
    ⟨429, "Too Many Requests", some 60000⟩ (by decide)

/-- C4 is refuted on the window-0 buckets: after `user:alice` reaches its
limit (counter 1 with limit 1, a state reached by one script invocation from
the empty store), the script returns `-1` (the `PTTL` of a key without
expiry), which is non-zero, yet `check_bucket` does not deny — contradicting
both "a non-zero return triggers 429" and "window-0 buckets deny once their
counters reach the limit". -/
theorem C4_counterexample :
    (rate_limit_script ⟨[], []⟩ "user:alice" 1 0).2.store = [("user:alice", ⟨1, none⟩)] ∧
    (rate_limit_script ⟨[("user:alice", ⟨1, none⟩)], []⟩ "user:alice" 1 0).1 = -1 ∧
    ((-1 : Int) ≠ 0) ∧
    (check_bucket ⟨[("user:alice", ⟨1, none⟩)], []⟩ "user:alice" (some 1) 0).2 = none :=
  ⟨by decide, by decide, by decide, by decide⟩

/-- C3: the atomic rate-limit bucket script with parameters
(key, limit, window_ms): when no counter exists (value read as 0) it sets the
counter to 1 with expiry window_ms if window_ms > 0 (no expiry otherwise) and
returns 0; when a counter c > 0 exists and c + 1 ≤ limit it increments the
counter (keeping its expiry) and returns 0; when c > 0 and c + 1 > limit it
leaves the counter unchanged and returns the key's remaining time-to-live in
milliseconds (the `PTTL` of the key). -/
theorem C3_rate_limit_script_cases (kv : KV) (key : String) (limit window : Int) :
    (kv.readNum key = 0 →
      rate_limit_script kv key limit window =
        (0, ⟨setEntry kv.store key ⟨1, if window > 0 then some window else none⟩,
             kv.log ++ ["GET " ++ key, "SET " ++ key]⟩)) ∧
    (∀ e, lookupEntry kv.store key = some e → 0 < e.value → e.value + 1 ≤ limit →
      rate_limit_script kv key limit window =
        (0, ⟨setEntry kv.store key ⟨e.value + 1, e.ttl⟩,
             kv.log ++ ["GET " ++ key, "INCR " ++ key]⟩)) ∧
    (∀ e, lookupEntry kv.store key = some e → 0 < e.value → e.value + 1 > limit →
      rate_limit_script kv key limit window =
        (kv.pttlOf key, ⟨kv.store, kv.log ++ ["GET " ++ key, "PTTL " ++ key]⟩)) := by
  refine ⟨fun h0 => ?_, fun e he hpos hle => ?_, fun e he hpos hgt => ?_⟩
  · simp only [rate_limit_script, KV.getCmd, h0]
    norm_num
    split <;> simp [KV.setCmd]
  · have hread : kv.readNum key = e.value := by simp [KV.readNum, he]
    simp only [rate_limit_script, KV.getCmd, hread]
    rw [if_pos hpos, if_neg (by omega)]
    simp [KV.incrCmd, he]
  · have hread : kv.readNum key = e.value := by simp [KV.readNum, he]
    simp only [rate_limit_script, KV.getCmd, hread]
    rw [if_pos hpos, if_pos (by omega)]
    simp [KV.pttlCmd, KV.pttlOf]

/-- Witness for C3: a concrete store exercising all three branches. -/
theorem C3_rate_limit_script_cases_witness :
    (rate_limit_script ⟨[], []⟩ "minute:alice" 5 60000 =
      (0, ⟨[("minute:alice", ⟨1, some 60000⟩)], ["GET minute:alice", "SET minute:alice"]⟩)) ∧
    (rate_limit_script ⟨[("minute:alice", ⟨1, some 900⟩)], []⟩ "minute:alice" 5 60000 =
      (0, ⟨[("minute:alice", ⟨2, some 900⟩)], ["GET minute:alice", "INCR minute:alice"]⟩)) ∧
    (rate_limit_script ⟨[("minute:alice", ⟨5, some 900⟩)], []⟩ "minute:alice" 5 60000 =
      (900, ⟨[("minute:alice", ⟨5, some 900⟩)], ["GET minute:alice", "PTTL minute:alice"]⟩)) := by
  refine ⟨?_, ?_, ?_⟩
  · have h := (C3_rate_limit_script_cases ⟨[], []⟩ "minute:alice" 5 60000).1 (by decide)
    simpa using h
  · have h := (C3_rate_limit_script_cases ⟨[("minute:alice", ⟨1, some 900⟩)], []⟩
      "minute:alice" 5 60000).2.1 ⟨1, some 900⟩ (by decide) (by decide) (by decide)
    simpa using h
  · have h := (C3_rate_limit_script_cases ⟨[("minute:alice", ⟨5, some 900⟩)], []⟩
      "minute:alice" 5 60000).2.2 ⟨5, some 900⟩ (by decide) (by decide) (by decide)
    simpa using h

/-- C10: a bucket whose configured limit is `None` issues no key-value-store
command at all: the store and the command log are unchanged, and the check
never denies. -/
theorem C10_no_limit_no_command (kv : KV) (key : String) (milliseconds : Int) :
    check_bucket kv key none milliseconds = (kv, none) := rfl

/-! ## The message adapter (`nilai_common/api_model.py`) -/

/-- The value found under a part's `"text"` key: a string, or some present
non-string value (the code checks `isinstance(t, str)`). -/
inductive TextVal
  | tstr (s : String)
  | tnonstr
deriving DecidableEq, Repr

/-- A content part (a dict in the source); we record the two keys the code
reads: `"type"` and `"text"` (`none` = key absent). -/
structure ContentPart where
  typeField : Option String
  textField : Option TextVal
deriving DecidableEq, Repr

/-- A message's `content`: a string, a list of parts, or `None` (any other
payload behaves like `None` in `_extract_text_from_content`). -/
inductive MessageContent
  | mcstr (s : String)
  | mcparts (parts : List ContentPart)
  | mcnull
deriving DecidableEq, Repr

structure Message where
  role : String
  content : MessageContent
deriving DecidableEq, Repr

/-- Modelled from the spec: Python's built-in `str.strip()` removes leading
and trailing whitespace. -/
def pyStrip (s : String) : String :=
  ⟨((s.data.dropWhile Char.isWhitespace).reverse.dropWhile Char.isWhitespace).reverse⟩

/-- The body of the per-part loop of `_extract_text_from_content`: parts
whose `type` is `"text"` and whose `text` is a string with non-empty strip
contribute their stripped text. -/
def extract_part (part : ContentPart) : Option String :=
  if part.typeField = some "text" then
    match part.textField with
    | some (.tstr t) => if pyStrip t = "" then none else some (pyStrip t)
    | _ => none
  else none

/-- `_extract_text_from_content` of `api_model.py`. -/
def _extract_text_from_content : MessageContent → Option String
  | .mcstr content =>
    let s := pyStrip content
    if s = "" then none else some s
  | .mcparts parts =>
    let collected := parts.filterMap extract_part
    if collected = [] then none else some (String.intercalate "\n" collected)
  | .mcnull => none

def MessageAdapter.new_message (role : String) (content : MessageContent) : Message :=
  ⟨role, content⟩

def MessageAdapter.extract_text (m : Message) : Option String :=
  _extract_text_from_content m.content

/-- `MessageAdapter.is_multimodal_part`: true when the content is a part
list containing an `image_url` or `input_image` part. -/
def Message.is_multimodal_part (m : Message) : Bool :=
  match m.content with
  | .mcnull => false
  | .mcstr _ => false
  | .mcparts parts =>
    parts.any (fun p => p.typeField == some "image_url" || p.typeField == some "input_image")

/-- The raw `text` string of a `"text"`-type part, before any stripping:
the description against which the per-part loop is characterized. -/
def text_part_value (p : ContentPart) : Option String :=
  if p.typeField = some "text" then
    match p.textField with
    | some (.tstr t) => some t
    | _ => none
  else none

/-- The per-part loop collects exactly: the text fields of the text-type
parts, each stripped, with the empty ones dropped — also on mixed lists
containing non-text parts, absent fields, or non-string texts. -/
theorem filterMap_extract_part_eq (parts : List ContentPart) :
    parts.filterMap extract_part =
      ((parts.filterMap text_part_value).map pyStrip).filter (fun t => !(t == "")) := by
  induction parts with
  | nil => rfl
  | cons p ps ih =>
    simp only [List.filterMap_cons]
    by_cases ht : p.typeField = some "text"
    · simp only [extract_part, text_part_value, if_pos ht]
      cases hf : p.textField with
      | none => simpa using ih
      | some tv =>
        cases tv with
        | tnonstr => simpa using ih
        | tstr t =>
          by_cases he : pyStrip t = ""
          · simp [he, ih]
          · simp [he, ih]
    · simp only [extract_part, text_part_value, if_neg ht]
      exact ih

/-- C9 (amended): for every role and every string `text`,
`extract_text(new_message(role, text))` returns `text` stripped of leading
and trailing whitespace, and `None` when the stripped text is empty.  For an
arbitrary content list (including mixed lists with non-text parts), it
returns the text fields of the text-type parts, each stripped, with the
empty ones dropped, joined by newline characters — and `None` when nothing
remains. -/
theorem C9_amended (role text : String) (parts : List ContentPart) :
    MessageAdapter.extract_text (MessageAdapter.new_message role (.mcstr text)) =
      (if pyStrip text = "" then none else some (pyStrip text)) ∧
    MessageAdapter.extract_text (MessageAdapter.new_message role (.mcparts parts)) =
      (if ((parts.filterMap text_part_value).map pyStrip).filter
            (fun t => !(t == "")) = [] then
         none
       else
         some (String.intercalate "\n"
           (((parts.filterMap text_part_value).map pyStrip).filter
             (fun t => !(t == ""))))) := by
  constructor
  · rfl
  · simp only [MessageAdapter.extract_text, MessageAdapter.new_message,
      _extract_text_from_content, filterMap_extract_part_eq]

/-- C9 is refuted as literally stated: the round-trip is not the identity on
texts with surrounding whitespace — `" hi "` comes back stripped. -/
theorem C9_counterexample :
    MessageAdapter.extract_text (MessageAdapter.new_message "user" (.mcstr " hi ")) =
      some "hi" ∧ some "hi" ≠ some " hi " :=
  ⟨by decide, by decide⟩

/-! ## The rate-limit dependency (`RateLimit.__call__`) and the chat pipeline -/

def MINUTE_MS : Int := 60 * 1000
def HOUR_MS : Int := 60 * MINUTE_MS
def DAY_MS : Int := 24 * HOUR_MS

/-- Per-user limits (`nilai_api.db.users.RateLimits`); `none` = no limit. -/
structure RateLimits where
  user_rate_limit_minute : Option Int
  user_rate_limit_hour : Option Int
  user_rate_limit_day : Option Int
  user_rate_limit : Option Int
  web_search_rate_limit : Option Int
  web_search_rate_limit_minute : Option Int
  web_search_rate_limit_hour : Option Int
  web_search_rate_limit_day : Option Int
deriving DecidableEq, Repr

/-- One collected proof limit (`nuc_helpers.usage.TokenRateLimit`);
`expires_at` is an epoch timestamp in milliseconds. -/
structure TokenRateLimit where
  signature : String
  expires_at : Int
  usage_limit : Option Int
deriving DecidableEq, Repr

/-- `TokenRateLimit.ms_remaining` at current time `now` (ms). -/
def TokenRateLimit.ms_remaining (l : TokenRateLimit) (now : Int) : Int :=
  l.expires_at - now

structure TokenRateLimits where
  limits : List TokenRateLimit
deriving DecidableEq, Repr

structure UserRateLimits where
  user_id : String
  token_rate_limit : Option TokenRateLimits
  rate_limits : RateLimits
deriving DecidableEq, Repr

/-- Sequencing of bucket checks: an `HTTPException` raised by one check
aborts the remaining checks. -/
def bindStep (r : KV × Option HTTPError) (f : KV → KV × Option HTTPError) :
    KV × Option HTTPError :=
  match r with
  | (kv, some e) => (kv, some e)
  | (kv, none) => f kv

def check_token_buckets (limits : List TokenRateLimit) (now : Int) (kv : KV) :
    KV × Option HTTPError :=
  limits.foldl
    (fun r l => bindStep r (fun kv =>
      check_bucket kv ("token:" ++ l.signature) l.usage_limit (l.ms_remaining now)))
    (kv, none)

def check_web_search_buckets (u : UserRateLimits) (allowed_rps : Int) (kv : KV) :
    KV × Option HTTPError :=
  bindStep (check_bucket kv "global:web_search:rps" (some allowed_rps) 1000) (fun kv =>
  bindStep (check_bucket kv ("web_search:" ++ u.user_id)
      u.rate_limits.web_search_rate_limit 0) (fun kv =>
  bindStep (check_bucket kv ("web_search_minute:" ++ u.user_id)
      u.rate_limits.web_search_rate_limit_minute MINUTE_MS) (fun kv =>
  bindStep (check_bucket kv ("web_search_hour:" ++ u.user_id)
      u.rate_limits.web_search_rate_limit_hour HOUR_MS) (fun kv =>
  check_bucket kv ("web_search_day:" ++ u.user_id)
      u.rate_limits.web_search_rate_limit_day DAY_MS))))

/-- The bucket sequence of `RateLimit.__call__` up to (excluding) the
concurrency gauge: minute, hour, day, forever, per-proof token buckets, and
— when the request declares web search — the web-search group.
`allowed_rps` is the configured global web-search burst limit. -/
def rate_limit_buckets (u : UserRateLimits) (web_search_enabled : Bool)
    (allowed_rps now : Int) (kv : KV) : KV × Option HTTPError :=
  bindStep (check_bucket kv ("minute:" ++ u.user_id)
      u.rate_limits.user_rate_limit_minute MINUTE_MS) (fun kv =>
  bindStep (check_bucket kv ("hour:" ++ u.user_id)
      u.rate_limits.user_rate_limit_hour HOUR_MS) (fun kv =>
  bindStep (check_bucket kv ("day:" ++ u.user_id)
      u.rate_limits.user_rate_limit_day DAY_MS) (fun kv =>
  bindStep (check_bucket kv ("user:" ++ u.user_id)
      u.rate_limits.user_rate_limit 0) (fun kv =>
  bindStep (match u.token_rate_limit with
    | none => (kv, none)
    | some t => check_token_buckets t.limits now kv) (fun kv =>
  if web_search_enabled then check_web_search_buckets u allowed_rps kv
  else (kv, none))))))

/-- `RateLimit.check_concurrent_and_increment`: `cfg` is the configured
`(max_concurrent, key)` (from `concurrent` or `concurrent_extractor`), or
`none` when neither is set. -/
def check_concurrent_and_increment (kv : KV) (cfg : Option (Int × String)) :
    KV × Except HTTPError (Option String) :=
  match cfg with
  | none => (kv, .ok none)
  | some (max_concurrent, key) =>
    let (current, kv) := kv.incrCmd ("concurrent:" ++ key)
    if current > max_concurrent then
      let (_, kv) := kv.decrCmd ("concurrent:" ++ key)
      (kv, .error ⟨429, "Too Many Requests", none⟩)
    else
      (kv, .ok (some key))

def concurrent_decrement (kv : KV) (key : Option String) : KV :=
  match key with
  | none => kv
  | some k => (kv.decrCmd ("concurrent:" ++ k)).2

/-- How the request body terminates once dispatched. -/
inductive UpstreamOutcome
  | succeeds
  | fails (e : HTTPError)
  | cancelled
deriving DecidableEq, Repr

inductive ReqResult
  | completed
  | failed (e : HTTPError)
  | cancelled
deriving DecidableEq, Repr

def outcomeResult : UpstreamOutcome → ReqResult
  | .succeeds => .completed
  | .fails e => .failed e
  | .cancelled => .cancelled

/-- The gauge portion of `RateLimit.__call__` (acquire; `yield`; `finally:`
decrement).  The `finally` block runs on normal completion, on an exception
raised by the handler, and on task cancellation, so the decrement is applied
to every `body` outcome; an acquisition failure propagates before the `try`,
so no teardown decrement happens then. -/
def rate_limit_guard (kv : KV) (cfg : Option (Int × String)) (body : ReqResult) :
    KV × ReqResult :=
  match check_concurrent_and_increment kv cfg with
  | (kv, .error e) => (kv, .failed e)
  | (kv, .ok key) => (concurrent_decrement kv key, body)

/-- The whole dependency `RateLimit.__call__`: all bucket checks, then the
concurrency gauge around the handler. -/
def RateLimit_call (u : UserRateLimits) (web_search_enabled : Bool)
    (allowed_rps now : Int) (cfg : Option (Int × String)) (kv : KV)
    (body : ReqResult) : KV × ReqResult :=
  match rate_limit_buckets u web_search_enabled allowed_rps now kv with
  | (kv, some e) => (kv, .failed e)
  | (kv, none) => rate_limit_guard kv cfg body

/-! ## The chat-completion handler body and pipeline (`routers/private.py`) -/

structure ModelMetadata where
  tool_support : Bool
  multimodal_support : Bool
deriving DecidableEq, Repr

structure ModelEndpoint where
  url : String
  metadata : ModelMetadata
deriving DecidableEq, Repr

/-- The fields of `ChatRequest` the modelled pipeline reads; `tools` is
whether the request carries a non-empty tool list. -/
structure ChatRequest where
  model : String
  messages : List Message
  tools : Bool
  web_search : Bool
deriving DecidableEq, Repr

def ChatRequest.has_multimodal_content (req : ChatRequest) : Bool :=
  req.messages.any (·.is_multimodal_part)

/-- The validation prefix of the `chat_completion` handler body: empty
message list, model resolution, tool support, multimodal support — then the
dispatched request's outcome. -/
def chat_handler (models : List (String × ModelEndpoint)) (req : ChatRequest)
    (body : UpstreamOutcome) : ReqResult :=
  if req.messages.length = 0 then
    .failed ⟨400, "Request contained 0 messages", none⟩
  else
    match models.lookup req.model with
    | none => .failed ⟨400, "Invalid model name", none⟩
    | some endpoint =>
      if !endpoint.metadata.tool_support && req.tools then
        .failed ⟨400, "Model does not support tool usage", none⟩
      else if req.has_multimodal_content &&
          (!endpoint.metadata.multimodal_support || req.web_search) then
        .failed ⟨400, "Model does not support multimodal content", none⟩
      else outcomeResult body

/-- `chat_completion_concurrent_rate_limit`: the per-model concurrent limit
from the config map (falling back to the `"default"` entry, then 50) and the
gauge key `chat:{model}`. -/
def chat_completion_concurrent_cfg (concLimits : List (String × Int))
    (req : ChatRequest) : Int × String :=
  ((concLimits.lookup req.model).getD ((concLimits.lookup "default").getD 50),
    "chat:" ++ req.model)

/-- The chat-completion request pipeline in FastAPI evaluation order: the
`RateLimit` dependency (bucket checks, then gauge acquisition) runs during
dependency resolution, before the handler body. -/
def chat_completion_pipeline (models : List (String × ModelEndpoint))
    (concLimits : List (String × Int)) (u : UserRateLimits) (req : ChatRequest)
    (allowed_rps now : Int) (body : UpstreamOutcome) (kv : KV) : KV × ReqResult :=
  RateLimit_call u req.web_search allowed_rps now
    (some (chat_completion_concurrent_cfg concLimits req)) kv
    (chat_handler models req body)

theorem lookupEntry_setEntry_self (st : List (String × KVEntry)) (k : String)
    (e : KVEntry) : lookupEntry (setEntry st k e) k = some e := by
  induction st with
  | nil => simp [setEntry, lookupEntry]
  | cons p rest ih =>
    obtain ⟨k₀, e₀⟩ := p
    by_cases h : k₀ = k
    · simp [setEntry, lookupEntry, h]
    · simp [setEntry, lookupEntry, h, ih]

/-- The live value of the concurrency gauge for `key`. -/
def KV.gaugeVal (kv : KV) (key : String) : Int :=
  kv.readNum ("concurrent:" ++ key)

theorem guard_eval_of_lookup_none {kv : KV} {key : String}
    (max_concurrent : Int) (body : ReqResult)
    (h : lookupEntry kv.store ("concurrent:" ++ key) = none) :
    rate_limit_guard kv (some (max_concurrent, key)) body =
      (⟨setEntry (setEntry kv.store ("concurrent:" ++ key) ⟨1, none⟩)
          ("concurrent:" ++ key) ⟨0, none⟩,
        kv.log ++ ["INCR " ++ ("concurrent:" ++ key)] ++
          ["DECR " ++ ("concurrent:" ++ key)]⟩,
       if 1 > max_concurrent then ReqResult.failed ⟨429, "Too Many Requests", none⟩
       else body) := by
  simp only [rate_limit_guard, check_concurrent_and_increment, KV.incrCmd, h]
  by_cases hgt : (1 : Int) > max_concurrent
  · rw [if_pos hgt, if_pos hgt]
    simp [KV.decrCmd, lookupEntry_setEntry_self]
  · rw [if_neg hgt, if_neg hgt]
    simp [concurrent_decrement, KV.decrCmd, lookupEntry_setEntry_self]

theorem guard_eval_of_lookup_some {kv : KV} {key : String} {e : KVEntry}
    (max_concurrent : Int) (body : ReqResult)
    (h : lookupEntry kv.store ("concurrent:" ++ key) = some e) :
    rate_limit_guard kv (some (max_concurrent, key)) body =
      (⟨setEntry (setEntry kv.store ("concurrent:" ++ key) ⟨e.value + 1, e.ttl⟩)
          ("concurrent:" ++ key) ⟨e.value, e.ttl⟩,
        kv.log ++ ["INCR " ++ ("concurrent:" ++ key)] ++
          ["DECR " ++ ("concurrent:" ++ key)]⟩,
       if e.value + 1 > max_concurrent then
         ReqResult.failed ⟨429, "Too Many Requests", none⟩
       else body) := by
  simp only [rate_limit_guard, check_concurrent_and_increment, KV.incrCmd, h]
  by_cases hgt : e.value + 1 > max_concurrent
  · rw [if_pos hgt, if_pos hgt]
    simp [KV.decrCmd, lookupEntry_setEntry_self]
  · rw [if_neg hgt, if_neg hgt]
    simp [concurrent_decrement, KV.decrCmd, lookupEntry_setEntry_self]

/-- C8: with no concurrency configuration the guard touches nothing; with a
configured `(max_concurrent, key)` every request issues exactly one `INCR`
and exactly one `DECR` of `concurrent:{key}` (the `DECR` last), the gauge
value is restored on termination, an increment that brings the gauge above
the limit yields an immediate decrement and a 429 rejection, and otherwise
the single decrement happens after the request body regardless of whether it
completed, failed, or was cancelled. -/
theorem C8_gauge_lifecycle (kv : KV) (max_concurrent : Int) (key : String)
    (body : ReqResult) :
    rate_limit_guard kv none body = (kv, body) ∧
    (rate_limit_guard kv (some (max_concurrent, key)) body).1.log =
      kv.log ++ ["INCR " ++ ("concurrent:" ++ key), "DECR " ++ ("concurrent:" ++ key)] ∧
    (rate_limit_guard kv (some (max_concurrent, key)) body).1.gaugeVal key =
      kv.gaugeVal key ∧
    (kv.gaugeVal key + 1 > max_concurrent →
      (rate_limit_guard kv (some (max_concurrent, key)) body).2 =
        .failed ⟨429, "Too Many Requests", none⟩) ∧
    (¬ kv.gaugeVal key + 1 > max_concurrent →
      (rate_limit_guard kv (some (max_concurrent, key)) body).2 = body) := by
  cases hl : lookupEntry kv.store ("concurrent:" ++ key) with
  | none =>
    have hg : kv.gaugeVal key = 0 := by simp [KV.gaugeVal, KV.readNum, hl]
    rw [guard_eval_of_lookup_none max_concurrent body hl]
    refine ⟨rfl, by simp, ?_, ?_, ?_⟩
    · simp [KV.gaugeVal, KV.readNum, lookupEntry_setEntry_self, hl]
    · intro hgt
      rw [hg] at hgt
      rw [if_pos (show (1 : Int) > max_concurrent by omega)]
    · intro hgt
      rw [hg] at hgt
      rw [if_neg (show ¬ (1 : Int) > max_concurrent by omega)]
  | some e =>
    have hg : kv.gaugeVal key = e.value := by simp [KV.gaugeVal, KV.readNum, hl]
    rw [guard_eval_of_lookup_some max_concurrent body hl]
    refine ⟨rfl, by simp, ?_, ?_, ?_⟩
    · simp [KV.gaugeVal, KV.readNum, lookupEntry_setEntry_self, hl]
    · intro hgt
      rw [hg] at hgt
      rw [if_pos (show e.value + 1 > max_concurrent by omega)]
    · intro hgt
      rw [hg] at hgt
      rw [if_neg (show ¬ e.value + 1 > max_concurrent by omega)]

/-- Witness for C8: a gauge at 5 with limit 1 rejects with 429; a fresh
gauge with limit 50 admits the request and returns the body's outcome. -/
theorem C8_gauge_lifecycle_witness :
    (rate_limit_guard ⟨[("concurrent:chat:m", ⟨5, none⟩)], []⟩ (some (1, "chat:m"))
        .completed).2 = .failed ⟨429, "Too Many Requests", none⟩ ∧
    (rate_limit_guard ⟨[], []⟩ (some (50, "chat:m")) .completed).2 = .completed := by
  constructor
  · exact (C8_gauge_lifecycle ⟨[("concurrent:chat:m", ⟨5, none⟩)], []⟩ 1 "chat:m"
      .completed).2.2.2.1 (by decide)
  · exact (C8_gauge_lifecycle ⟨[], []⟩ 50 "chat:m" .completed).2.2.2.2 (by decide)

/-- C5 (amended): the rate-limit dependency runs during FastAPI dependency
resolution, before the handler body, so a request naming a model with no
registered endpoint receives 400 only after every fixed-window bucket has
been checked (and its counters incremented) and the concurrency gauge has
been acquired; the final store is the post-bucket, post-acquisition store
with only the gauge released. -/
theorem C5_amended (models : List (String × ModelEndpoint))
    (concLimits : List (String × Int)) (u : UserRateLimits) (req : ChatRequest)
    (allowed_rps now : Int) (body : UpstreamOutcome) (kv kv1 kv2 : KV)
    (key : Option String)
    (hmodel : models.lookup req.model = none)
    (hmsgs : req.messages ≠ [])
    (hbuckets : rate_limit_buckets u req.web_search allowed_rps now kv = (kv1, none))
    (hacq : check_concurrent_and_increment kv1
      (some (chat_completion_concurrent_cfg concLimits req)) = (kv2, .ok key)) :
    chat_completion_pipeline models concLimits u req allowed_rps now body kv =
      (concurrent_decrement kv2 key, .failed ⟨400, "Invalid model name", none⟩) := by
  unfold chat_completion_pipeline RateLimit_call
  rw [hbuckets]
  dsimp only
  unfold rate_limit_guard
  rw [hacq]
  dsimp only
  unfold chat_handler
  rw [if_neg (fun h => hmsgs (List.length_eq_zero.1 h)), hmodel]

/-- Witness for C5 (amended): user `alice` with a minute limit of 5 asks for
the unregistered model `m`; the minute counter is created at 1 and the
request still fails with 400. -/
theorem C5_amended_witness :
    chat_completion_pipeline [] [] ⟨"alice", none,
        ⟨some 5, none, none, none, none, none, none, none⟩⟩
      ⟨"m", [⟨"user", .mcstr "hi"⟩], false, false⟩ 1 0 .succeeds ⟨[], []⟩ =
      (concurrent_decrement
        ⟨[("minute:alice", ⟨1, some 60000⟩), ("concurrent:chat:m", ⟨1, none⟩)],
         ["GET minute:alice", "SET minute:alice", "INCR concurrent:chat:m"]⟩
        (some "chat:m"),
       .failed ⟨400, "Invalid model name", none⟩) :=
  C5_amended [] [] ⟨"alice", none, ⟨some 5, none, none, none, none, none, none, none⟩⟩
    ⟨"m", [⟨"user", .mcstr "hi"⟩], false, false⟩ 1 0 .succeeds ⟨[], []⟩
    ⟨[("minute:alice", ⟨1, some 60000⟩)], ["GET minute:alice", "SET minute:alice"]⟩
    ⟨[("minute:alice", ⟨1, some 60000⟩), ("concurrent:chat:m", ⟨1, none⟩)],
     ["GET minute:alice", "SET minute:alice", "INCR concurrent:chat:m"]⟩
    (some "chat:m") (by decide) (by decide) (by rfl) (by rfl)

/-! ## Usage-limit extraction (`nuc_helpers/usage.py`) -/

/-- A JSON metadata value as far as `from_token` inspects it: an integer, a
null, or some other (non-integer) value. -/
inductive MetaVal
  | mInt (n : Int)
  | mStr (s : String)
  | mNull
deriving DecidableEq, Repr

/-- A decoded proof of a token envelope: its signature (hex form), the
decoded token's optional expiry (epoch milliseconds) and metadata map
(`none` when the token has no meta). -/
structure ProofNode where
  signature : String
  expires_at : Option Int
  meta : Option (List (String × MetaVal))
deriving DecidableEq, Repr

inductive UsageLimitKind
  | INCONSISTENT
  | INVALID_TYPE
deriving DecidableEq, Repr

/-- `is_reduction_of`: `0 < reduced <= base`. -/
def is_reduction_of (base reduced : Int) : Bool :=
  decide (0 < reduced ∧ reduced ≤ base)

/-- The proof loop of `TokenRateLimits.from_token`, walking proofs already
put in root-to-leaf order and carrying the collected limits: a proof whose
meta holds a non-null `usage_limit` must hold an integer
(else `INVALID_TYPE`); when the accumulator is non-empty the value must be a
reduction of the previously collected one (else `INCONSISTENT`); a missing
`expires_at` is replaced by a timestamp one day in the past. -/
def from_token_go (now : Int) :
    List ProofNode → List TokenRateLimit → Except UsageLimitKind (List TokenRateLimit)
  | [], acc => .ok acc
  | proof :: rest, acc =>
    match proof.meta with
    | none => from_token_go now rest acc
    | some meta =>
      match meta.lookup "usage_limit" with
      | none => from_token_go now rest acc
      | some .mNull => from_token_go now rest acc
      | some (.mStr _) => .error .INVALID_TYPE
      | some (.mInt token_usage_limit) =>
        let entry : TokenRateLimit :=
          ⟨proof.signature, proof.expires_at.getD (now - DAY_MS), some token_usage_limit⟩
        match acc.getLast? with
        | none => from_token_go now rest (acc ++ [entry])
        | some prev =>
          if is_reduction_of (prev.usage_limit.getD 0) token_usage_limit then
            from_token_go now rest (acc ++ [entry])
          else
            .error .INCONSISTENT

/-- `TokenRateLimits.from_token`: the envelope's proofs are stored
leaf-to-root and iterated reversed (`proofs[::-1]`), i.e. root-to-leaf;
an empty collection yields `None`. -/
def TokenRateLimits.from_token (now : Int) (proofs : List ProofNode) :
    Except UsageLimitKind (Option TokenRateLimits) :=
  match from_token_go now proofs.reverse [] with
  | .error k => .error k
  | .ok [] => .ok none
  | .ok limits => .ok (some ⟨limits⟩)

/-- Consecutive collected limits are strictly positive reductions. -/
def reduction_step (a b : TokenRateLimit) : Prop :=
  ∃ x y : Int, a.usage_limit = some x ∧ b.usage_limit = some y ∧ 0 < y ∧ y ≤ x

theorem chain'_snd_pos :
    ∀ {l : List TokenRateLimit}, List.Chain' reduction_step l →
      ∀ x ∈ l.tail, ∀ v : Int, x.usage_limit = some v → 0 < v := by
  intro l
  induction l with
  | nil =>
    intro _ x hx
    simp at hx
  | cons a rest ih =>
    intro hc x hx v hv
    cases rest with
    | nil => simp at hx
    | cons b rest' =>
      have hc' := List.chain'_cons.1 hc
      rcases List.mem_cons.1 hx with rfl | hx'
      · obtain ⟨x0, y0, _, hby, hy0, _⟩ := hc'.1
        rw [hby] at hv
        cases hv
        exact hy0
      · exact ih hc'.2 x hx' v hv

theorem from_token_go_spec (now : Int) :
    ∀ (proofs : List ProofNode) (acc out : List TokenRateLimit),
      (∀ l ∈ acc, ∃ v : Int, l.usage_limit = some v) →
      List.Chain' reduction_step acc →
      from_token_go now proofs acc = .ok out →
      (∀ l ∈ out, ∃ v : Int, l.usage_limit = some v) ∧
        List.Chain' reduction_step out := by
  intro proofs
  induction proofs with
  | nil =>
    intro acc out h1 h2 h
    cases h
    exact ⟨h1, h2⟩
  | cons p rest ih =>
    intro acc out h1 h2 h
    simp only [from_token_go] at h
    split at h
    · exact ih acc out h1 h2 h
    · split at h
      · exact ih acc out h1 h2 h
      · exact ih acc out h1 h2 h
      · cases h
      · rename_i token_usage_limit hmeta
        split at h
        · rename_i hlast
          refine ih _ out ?_ ?_ h
          · intro l hl
            rcases List.mem_append.1 hl with hl | hl
            · exact h1 l hl
            · rw [List.mem_singleton.1 hl]
              exact ⟨token_usage_limit, rfl⟩
          · rw [List.getLast?_eq_none_iff.1 hlast]
            simp
        · rename_i prev hlast
          split at h
          · rename_i hred
            refine ih _ out ?_ ?_ h
            · intro l hl
              rcases List.mem_append.1 hl with hl | hl
              · exact h1 l hl
              · rw [List.mem_singleton.1 hl]
                exact ⟨token_usage_limit, rfl⟩
            · rw [List.chain'_append]
              refine ⟨h2, List.chain'_singleton _, ?_⟩
              intro x hx y hy
              rw [hlast] at hx
              cases hx
              cases hy
              obtain ⟨pv, hpv⟩ := h1 prev (List.mem_of_mem_getLast? hlast)
              obtain ⟨hr1, hr2⟩ := of_decide_eq_true hred
              rw [hpv] at hr2
              simp only [Option.getD_some] at hr2
              exact ⟨pv, token_usage_limit, hpv, rfl, hr1, hr2⟩
          · cases h

/-- C1 (amended): for every accepted token chain, every collected limit is
an integer value, each collected value after the first satisfies
`0 < value ≤ previous` (so the collected sequence is monotonically
non-increasing from the first element on, and every value after the first is
strictly positive); violations raise the inconsistent-usage-limit or
invalid-usage-limit-type error.  The first collected value, however, is NOT
checked for positivity: a chain whose only collected `usage_limit` is zero
or negative is accepted. -/
theorem C1_amended (now : Int) (proofs : List ProofNode) (tls : TokenRateLimits)
    (h : TokenRateLimits.from_token now proofs = .ok (some tls)) :
    (∀ l ∈ tls.limits, ∃ v : Int, l.usage_limit = some v) ∧
    List.Chain' reduction_step tls.limits ∧
    (∀ l ∈ tls.limits.tail, ∀ v : Int, l.usage_limit = some v → 0 < v) := by
  have hgo : ∃ out, from_token_go now proofs.reverse [] = .ok out ∧ tls.limits = out := by
    unfold TokenRateLimits.from_token at h
    split at h
    · cases h
    · cases h
    · rename_i limits hne hlim
      cases h
      exact ⟨limits, hlim, rfl⟩
  obtain ⟨out, hout, hlimits⟩ := hgo
  obtain ⟨h1, h2⟩ := from_token_go_spec now proofs.reverse [] out
    (by intro l hl; simp at hl) (by simp) hout
  rw [hlimits]
  exact ⟨h1, h2, chain'_snd_pos h2⟩

/-- Witness for C1 (amended): a two-proof chain with limits 100 then 50
(root to leaf). -/
theorem C1_amended_witness :
    (∀ l ∈ ([⟨"sigroot", 1000, some 100⟩, ⟨"sigleaf", 2000, some 50⟩] :
        List TokenRateLimit), ∃ v : Int, l.usage_limit = some v) ∧
    List.Chain' reduction_step
      [⟨"sigroot", 1000, some 100⟩, ⟨"sigleaf", 2000, some 50⟩] ∧
    (∀ l ∈ ([⟨"sigroot", 1000, some 100⟩, ⟨"sigleaf", 2000, some 50⟩] :
        List TokenRateLimit).tail, ∀ v : Int, l.usage_limit = some v → 0 < v) :=
  C1_amended 0
    [⟨"sigleaf", some 2000, some [("usage_limit", .mInt 50)]⟩,
     ⟨"sigroot", some 1000, some [("usage_limit", .mInt 100)]⟩]
    ⟨[⟨"sigroot", 1000, some 100⟩, ⟨"sigleaf", 2000, some 50⟩]⟩ rfl

/-- C1 is refuted as literally stated: a chain whose single proof carries
`usage_limit = 0` is accepted (no error is raised and the limit is
collected), yet its extracted sequence `[0]` is not strictly positive — the
code never checks the first collected value. -/
theorem C1_counterexample :
    TokenRateLimits.from_token 0 [⟨"sig0", some 1000, some [("usage_limit", .mInt 0)]⟩] =
      .ok (some ⟨[⟨"sig0", 1000, some 0⟩]⟩) ∧
    (⟨[⟨"sig0", 1000, some 0⟩]⟩ : TokenRateLimits).limits.map
      TokenRateLimit.usage_limit = [some 0] ∧
    ¬ (0 : Int) < 0 :=
  ⟨rfl, rfl, by decide⟩

/-! ## Tool workflow and usage aggregation (`tool_router.py`, `private.py`) -/

structure LUsage where
  prompt_tokens : Int
  completion_tokens : Int
  total_tokens : Int
deriving DecidableEq, Repr

structure ToolCall where
  id : String
  name : String
  arguments : String
deriving DecidableEq, Repr

/-- A chat completion as far as the usage aggregation reads it. -/
structure ChatCompletionModel where
  id : String
  model : String
  usage : Option LUsage
deriving DecidableEq, Repr

/-- `handle_tool_workflow` at the usage level: starts from the first
completion's token counts (0 when absent); with no extracted tool calls it
returns the first completion and zero aggregates; otherwise it issues
exactly one follow-up completion (`second`) and returns it together with the
summed token counts of both rounds.  At most one follow-up round is
performed. -/
def handle_tool_workflow (first : ChatCompletionModel) (tool_calls : List ToolCall)
    (second : ChatCompletionModel) : ChatCompletionModel × Int × Int :=
  let prompt_tokens :=
    match first.usage with | some u => u.prompt_tokens | none => 0
  let completion_tokens :=
    match first.usage with | some u => u.completion_tokens | none => 0
  if tool_calls.isEmpty then
    (first, 0, 0)
  else
    let prompt_tokens := prompt_tokens +
      (match second.usage with | some u => u.prompt_tokens | none => 0)
    let completion_tokens := completion_tokens +
      (match second.usage with | some u => u.completion_tokens | none => 0)
    (second, prompt_tokens, completion_tokens)

/-- The usage tail of the non-streaming `chat_completion` handler: the
response carries the final completion's usage (500 when absent); when the
aggregates are non-zero the handler sets
`usage.prompt_tokens = response.usage.prompt_tokens + agg_prompt_tokens`
(and likewise for completion tokens), where `response` is the FIRST
completion, and recomputes `total_tokens`. -/
def aggregate_response_usage (response_usage : Option LUsage)
    (wf : ChatCompletionModel × Int × Int) : Except HTTPError LUsage :=
  match wf with
  | (final, agg_prompt_tokens, agg_completion_tokens) =>
    match final.usage with
    | none => .error ⟨500, "Model response does not contain usage statistics", none⟩
    | some u =>
      if agg_prompt_tokens ≠ 0 ∨ agg_completion_tokens ≠ 0 then
        match response_usage with
        | none => .error ⟨500, "AttributeError", none⟩
        | some ru =>
          let total_prompt_tokens := ru.prompt_tokens + agg_prompt_tokens
          let total_completion_tokens := ru.completion_tokens + agg_completion_tokens
          .ok ⟨total_prompt_tokens, total_completion_tokens,
               total_prompt_tokens + total_completion_tokens⟩
      else
        .ok u

/-- The final usage reported by the non-streaming handler after the tool
workflow. -/
def chat_completion_final_usage (first : ChatCompletionModel)
    (tool_calls : List ToolCall) (second : ChatCompletionModel) :
    Except HTTPError LUsage :=
  aggregate_response_usage first.usage (handle_tool_workflow first tool_calls second)

/-- C6 evaluated at its failing input: a first completion with usage
(10, 5, 15), one extracted tool call, and a follow-up completion with usage
(7, 2, 9).  `handle_tool_workflow` returns the documented sum of both rounds
(17, 7) — as its unit test asserts — but the handler then adds the first
completion's usage again, reporting (27, 12, 39) instead of the claimed
(17, 7, 24): the first round is double-counted. -/
theorem C6_usage_double_count :
    handle_tool_workflow ⟨"c1", "m", some ⟨10, 5, 15⟩⟩
        [⟨"call1", "execute_python", "code"⟩] ⟨"c2", "m", some ⟨7, 2, 9⟩⟩ =
      (⟨"c2", "m", some ⟨7, 2, 9⟩⟩, 17, 7) ∧
    chat_completion_final_usage ⟨"c1", "m", some ⟨10, 5, 15⟩⟩
        [⟨"call1", "execute_python", "code"⟩] ⟨"c2", "m", some ⟨7, 2, 9⟩⟩ =
      .ok ⟨27, 12, 39⟩ ∧
    ((27 : Int), (12 : Int), (39 : Int)) ≠ (10 + 7, 5 + 2, 15 + 9) :=
  ⟨rfl, rfl, by decide⟩

/-! ## Document-binding extraction (`nuc_helpers/nildb_document.py`) -/

structure Did where
  key : String
deriving DecidableEq, Repr

/-- Modelled from the spec: `Did.parse` of the external nuc library.  Per the
spec glossary a DID is a decentralized-identifier string binding to a public
key; parsing strips the `did:nil:` scheme and fails on any other shape. -/
def Did.parse (s : String) : Option Did :=
  if s.data.take 8 = "did:nil:".data then some ⟨⟨s.data.drop 8⟩⟩ else none

/-- The fields of a decoded proof that `PromptDocument.from_token` reads:
the decoded token's issuer and metadata map. -/
structure DocProofNode where
  issuer : Did
  meta : Option (List (String × MetaVal))
deriving DecidableEq, Repr

structure PromptDocument where
  document_id : String
  owner_did : String
deriving DecidableEq, Repr

def MetaVal.asStr : MetaVal → Option String
  | .mStr s => some s
  | _ => none

/-- `meta.get(k, None)` with a present null value counting as absent
(the code tests `... is not None`). -/
def metaGet (meta : List (String × MetaVal)) (k : String) : Option MetaVal :=
  match meta.lookup k with
  | some .mNull => none
  | v => v

def metaOf (p : DocProofNode) (k : String) : Option MetaVal :=
  match p.meta with
  | none => none
  | some m => metaGet m k

/-- The proof-selection condition: meta present with both `document_id` and
`document_owner_did` non-null. -/
def node_has_binding (p : DocProofNode) : Bool :=
  (metaOf p "document_id").isSome && (metaOf p "document_owner_did").isSome

/-- Processing of the selected proof: `Did.parse(document_owner_did)` (a
non-string or malformed value raises), the parsed DID must equal the proof's
issuer (else `ValueError`), and the returned `PromptDocument` carries the
`document_id` (a non-string raises at model validation). -/
def process_binding_node (p : DocProofNode) : Except String (Option PromptDocument) :=
  match metaOf p "document_id", metaOf p "document_owner_did" with
  | some docVal, some ownerVal =>
    (match ownerVal.asStr with
     | none => .error "document_owner_did is not a string"
     | some owner =>
       match Did.parse owner with
       | none => .error ("invalid DID " ++ owner)
       | some d =>
         if d = p.issuer then
           match docVal.asStr with
           | none => .error "document_id is not a string"
           | some docId => .ok (some ⟨docId, owner⟩)
         else
           .error ("Document owner DID " ++ owner ++ " does not match issuer"))
  | _, _ => .ok none

/-- The walk of `PromptDocument.from_token` over proofs in root-to-leaf
order: the first proof carrying both fields is processed; if none does, no
binding is returned. -/
def from_token_doc_go : List DocProofNode → Except String (Option PromptDocument)
  | [] => .ok none
  | p :: rest =>
    if node_has_binding p then process_binding_node p
    else from_token_doc_go rest

/-- `PromptDocument.from_token`: the envelope's proofs are stored
leaf-to-root and iterated reversed (`proofs[::-1]`), i.e. root-to-leaf. -/
def PromptDocument.from_token (proofs : List DocProofNode) :
    Except String (Option PromptDocument) :=
  from_token_doc_go proofs.reverse

theorem from_token_doc_go_spec (l : List DocProofNode) :
    from_token_doc_go l =
      match l.find? node_has_binding with
      | none => .ok none
      | some p => process_binding_node p := by
  induction l with
  | nil => rfl
  | cons p rest ih =>
    by_cases h : node_has_binding p
    · rw [from_token_doc_go, if_pos h, List.find?_cons_of_pos _ h]
    · rw [from_token_doc_go, if_neg h, List.find?_cons_of_neg _ (by simpa using h), ih]

/-- C7: document-binding extraction walks the proofs root-to-leaf and is
decided by the first proof whose meta contains both `document_id` and
`document_owner_did`: when no proof carries both fields the result is no
binding; when the first such proof's owner DID parses to its issuer the
binding `(document_id, document_owner_did)` is returned; when the parsed DID
differs from the issuer the token is rejected. -/
theorem C7_document_binding (proofs : List DocProofNode) :
    (PromptDocument.from_token proofs =
      match proofs.reverse.find? node_has_binding with
      | none => .ok none
      | some p => process_binding_node p) ∧
    (∀ p, proofs.reverse.find? node_has_binding = some p →
      ∀ docId owner, metaOf p "document_id" = some (.mStr docId) →
        metaOf p "document_owner_did" = some (.mStr owner) →
        (Did.parse owner = some p.issuer →
          PromptDocument.from_token proofs = .ok (some ⟨docId, owner⟩)) ∧
        (∀ d, Did.parse owner = some d → d ≠ p.issuer →
          PromptDocument.from_token proofs =
            .error ("Document owner DID " ++ owner ++ " does not match issuer"))) := by
  have hchar := from_token_doc_go_spec proofs.reverse
  refine ⟨hchar, ?_⟩
  intro p hfind docId owner hdoc howner
  have hres : PromptDocument.from_token proofs = process_binding_node p := by
    rw [PromptDocument.from_token, hchar, hfind]
  constructor
  · intro hparse
    rw [hres, process_binding_node, hdoc, howner]
    simp only [MetaVal.asStr, hparse]
    simp
  · intro d hparse hne
    rw [hres, process_binding_node, hdoc, howner]
    simp only [MetaVal.asStr, hparse]
    rw [if_neg hne]

/-- Witness for C7: a two-proof chain whose root proof carries a binding
with a matching owner DID. -/
theorem C7_document_binding_witness :
    (PromptDocument.from_token
        [⟨⟨"leafkey"⟩, none⟩,
         ⟨⟨"abc"⟩, some [("document_id", .mStr "doc1"),
                         ("document_owner_did", .mStr "did:nil:abc")]⟩] =
      match ([⟨⟨"leafkey"⟩, none⟩,
              ⟨⟨"abc"⟩, some [("document_id", .mStr "doc1"),
                              ("document_owner_did", .mStr "did:nil:abc")]⟩] :
          List DocProofNode).reverse.find? node_has_binding with
      | none => .ok none
      | some p => process_binding_node p) ∧
    PromptDocument.from_token
        [⟨⟨"leafkey"⟩, none⟩,
         ⟨⟨"abc"⟩, some [("document_id", .mStr "doc1"),
                         ("document_owner_did", .mStr "did:nil:abc")]⟩] =
      .ok (some ⟨"doc1", "did:nil:abc"⟩) := by
  have h := C7_document_binding
    [⟨⟨"leafkey"⟩, none⟩,
     ⟨⟨"abc"⟩, some [("document_id", .mStr "doc1"),
                     ("document_owner_did", .mStr "did:nil:abc")]⟩]
  refine ⟨h.1, ?_⟩
  exact (h.2 ⟨⟨"abc"⟩, some [("document_id", .mStr "doc1"),
      ("document_owner_did", .mStr "did:nil:abc")]⟩ (by rfl) "doc1" "did:nil:abc"
      (by rfl) (by rfl)).1 (by decide)

/-- C5 is refuted as stated: a request for the unregistered model `m` by a
user with a minute limit of 5 gets a 400, but the `minute:alice` bucket
counter — absent beforehand — has been created and set to 1, so a bucket was
consumed before the model-existence check. -/
theorem C5_counterexample :
    (chat_completion_pipeline [] [] ⟨"alice", none,
        ⟨some 5, none, none, none, none, none, none, none⟩⟩
      ⟨"m", [⟨"user", .mcstr "hi"⟩], false, false⟩ 1 0 .succeeds ⟨[], []⟩).2 =
      .failed ⟨400, "Invalid model name", none⟩ ∧
    lookupEntry (chat_completion_pipeline [] [] ⟨"alice", none,
        ⟨some 5, none, none, none, none, none, none, none⟩⟩
      ⟨"m", [⟨"user", .mcstr "hi"⟩], false, false⟩ 1 0 .succeeds ⟨[], []⟩).1.store
      "minute:alice" = some ⟨1, some 60000⟩ ∧
    lookupEntry ([] : List (String × KVEntry)) "minute:alice" = none :=
  ⟨by decide, by decide, rfl⟩

/-! ## Base64 (Python's `base64.b64encode` / `b64decode`, modelled)

Modelled from the spec: the handler base64-encodes the DER signature bytes
and the spec's verification property base64-decodes them; this is the
standard base64 with `=` padding. -/

def b64Alphabet : List Char :=
  "ABCDEFGHIJKLMNOPQRSTUVWXYZabcdefghijklmnopqrstuvwxyz0123456789+/".toList

def b64Char (n : Nat) : Char := b64Alphabet.getD n '='

def b64CharIdx (c : Char) : Option Nat := b64Alphabet.findIdx? (fun x => x == c)

def b64EncodeQuads : List Nat → List Char
  | [] => []
  | [a] => [b64Char (a / 4), b64Char (a % 4 * 16), '=', '=']
  | [a, b] => [b64Char (a / 4), b64Char (a % 4 * 16 + b / 16), b64Char (b % 16 * 4), '=']
  | a :: b :: c :: rest =>
    b64Char (a / 4) :: b64Char (a % 4 * 16 + b / 16) ::
      b64Char (b % 16 * 4 + c / 64) :: b64Char (c % 64) :: b64EncodeQuads rest

def b64encode (bs : List Nat) : String := ⟨b64EncodeQuads bs⟩

def b64DecodeQuads : List Char → Option (List Nat)
  | [] => some []
  | c1 :: c2 :: c3 :: c4 :: rest =>
    match b64CharIdx c1, b64CharIdx c2 with
    | some s1, some s2 =>
      if c3 = '=' then
        if c4 = '=' ∧ rest = [] then some [s1 * 4 + s2 / 16] else none
      else
        (match b64CharIdx c3 with
         | some s3 =>
           if c4 = '=' then
             if rest = [] then some [s1 * 4 + s2 / 16, s2 % 16 * 16 + s3 / 4] else none
           else
             (match b64CharIdx c4, b64DecodeQuads rest with
              | some s4, some ds =>
                some ((s1 * 4 + s2 / 16) :: (s2 % 16 * 16 + s3 / 4) ::
                  (s3 % 4 * 64 + s4) :: ds)
              | _, _ => none)
         | none => none)
    | _, _ => none
  | _ => none

def b64decode (s : String) : Option (List Nat) := b64DecodeQuads s.data

theorem b64CharIdx_b64Char_fin : ∀ n : Fin 64, b64CharIdx (b64Char n.val) = some n.val := by
  decide

theorem b64Char_ne_pad_fin : ∀ n : Fin 64, b64Char n.val ≠ '=' := by
  decide

theorem b64CharIdx_b64Char {n : Nat} (h : n < 64) : b64CharIdx (b64Char n) = some n :=
  b64CharIdx_b64Char_fin ⟨n, h⟩

theorem b64Char_ne_pad {n : Nat} (h : n < 64) : b64Char n ≠ '=' :=
  b64Char_ne_pad_fin ⟨n, h⟩

theorem b64DecodeQuads_encode :
    ∀ bs : List Nat, (∀ x ∈ bs, x < 256) →
      b64DecodeQuads (b64EncodeQuads bs) = some bs
  | [], _ => rfl
  | [a], h => by
    have ha : a < 256 := h a (by simp)
    rw [b64EncodeQuads, b64DecodeQuads,
      b64CharIdx_b64Char (by omega), b64CharIdx_b64Char (by omega)]
    simp only [if_pos rfl, and_self, if_pos]
    have : a / 4 * 4 + a % 4 * 16 / 16 = a := by omega
    rw [this]
  | [a, b], h => by
    have ha : a < 256 := h a (by simp)
    have hb : b < 256 := h b (by simp)
    have e1 : b64CharIdx (b64Char (a / 4)) = some (a / 4) :=
      b64CharIdx_b64Char (by omega)
    have e2 : b64CharIdx (b64Char (a % 4 * 16 + b / 16)) = some (a % 4 * 16 + b / 16) :=
      b64CharIdx_b64Char (by omega)
    have e3 : b64CharIdx (b64Char (b % 16 * 4)) = some (b % 16 * 4) :=
      b64CharIdx_b64Char (by omega)
    have p3 : b64Char (b % 16 * 4) ≠ '=' := b64Char_ne_pad (by omega)
    have h1 : a / 4 * 4 + (a % 4 * 16 + b / 16) / 16 = a := by omega
    have h2 : (a % 4 * 16 + b / 16) % 16 * 16 + b % 16 * 4 / 4 = b := by omega
    rw [b64EncodeQuads, b64DecodeQuads]
    simp [e1, e2, e3, p3, h1, h2]
    try omega
  | a :: b :: c :: d :: rest, h => by
    have ha : a < 256 := h a (by simp)
    have hb : b < 256 := h b (by simp)
    have hc : c < 256 := h c (by simp)
    have ih := b64DecodeQuads_encode (d :: rest)
      (fun x hx => h x (by simp [List.mem_cons] at hx ⊢; tauto))
    have e1 : b64CharIdx (b64Char (a / 4)) = some (a / 4) :=
      b64CharIdx_b64Char (by omega)
    have e2 : b64CharIdx (b64Char (a % 4 * 16 + b / 16)) = some (a % 4 * 16 + b / 16) :=
      b64CharIdx_b64Char (by omega)
    have e3 : b64CharIdx (b64Char (b % 16 * 4 + c / 64)) =
        some (b % 16 * 4 + c / 64) := b64CharIdx_b64Char (by omega)
    have e4 : b64CharIdx (b64Char (c % 64)) = some (c % 64) :=
      b64CharIdx_b64Char (by omega)
    have p3 : b64Char (b % 16 * 4 + c / 64) ≠ '=' := b64Char_ne_pad (by omega)
    have p4 : b64Char (c % 64) ≠ '=' := b64Char_ne_pad (by omega)
    have h1 : a / 4 * 4 + (a % 4 * 16 + b / 16) / 16 = a := by omega
    have h2 : (a % 4 * 16 + b / 16) % 16 * 16 + (b % 16 * 4 + c / 64) / 4 = b := by omega
    have h3 : (b % 16 * 4 + c / 64) % 4 * 64 + c % 64 = c := by omega
    rw [b64EncodeQuads, b64DecodeQuads]
    simp [e1, e2, e3, e4, p3, p4, h1, h2, h3, ih]
    try omega
  | [a, b, c], h => by
    have ha : a < 256 := h a (by simp)
    have hb : b < 256 := h b (by simp)
    have hc : c < 256 := h c (by simp)
    have e1 : b64CharIdx (b64Char (a / 4)) = some (a / 4) :=
      b64CharIdx_b64Char (by omega)
    have e2 : b64CharIdx (b64Char (a % 4 * 16 + b / 16)) = some (a % 4 * 16 + b / 16) :=
      b64CharIdx_b64Char (by omega)
    have e3 : b64CharIdx (b64Char (b % 16 * 4 + c / 64)) =
        some (b % 16 * 4 + c / 64) := b64CharIdx_b64Char (by omega)
    have e4 : b64CharIdx (b64Char (c % 64)) = some (c % 64) :=
      b64CharIdx_b64Char (by omega)
    have p3 : b64Char (b % 16 * 4 + c / 64) ≠ '=' := b64Char_ne_pad (by omega)
    have p4 : b64Char (c % 64) ≠ '=' := b64Char_ne_pad (by omega)
    have h1 : a / 4 * 4 + (a % 4 * 16 + b / 16) / 16 = a := by omega
    have h2 : (a % 4 * 16 + b / 16) % 16 * 16 + (b % 16 * 4 + c / 64) / 4 = b := by omega
    have h3 : (b % 16 * 4 + c / 64) % 4 * 64 + c % 64 = c := by omega
    have hnil : b64DecodeQuads (b64EncodeQuads []) = some [] := rfl
    rw [b64EncodeQuads, b64DecodeQuads]
    simp [e1, e2, e3, e4, p3, p4, h1, h2, h3, hnil]
    try omega

theorem b64decode_b64encode (bs : List Nat) (h : ∀ x ∈ bs, x < 256) :
    b64decode (b64encode bs) = some bs :=
  b64DecodeQuads_encode bs h

/-! ## Signing (`crypto.py`, with the external secp256k1 library modelled) -/

structure PrivateKey where
  sk : Nat
deriving DecidableEq, Repr

structure PublicKey where
  pk : Nat
deriving DecidableEq, Repr

/-- Modelled from the spec: the key derivation `private_key.pubkey` of the
external secp256k1 library. -/
def PrivateKey.pubkey (k : PrivateKey) : PublicKey := ⟨k.sk⟩

/-- Eight little-endian base-256 digits of a scalar. -/
def natBytes (n : Nat) : List Nat :=
  (List.range 8).map (fun i => n / 256 ^ i % 256)

def strBytesL : List Char → List Nat
  | [] => []
  | c :: cs =>
    c.toNat % 256 :: c.toNat / 256 % 256 :: c.toNat / 65536 % 256 :: strBytesL cs

def strBytes (s : String) : List Nat := strBytesL s.data

/-- Modelled from the spec: the DER-serialized ECDSA signature of the
external secp256k1 library (`ecdsa_sign` + `ecdsa_serialize`), idealized as
a byte string determined by the key pair and the message — a signature
verifies exactly when it was produced over the same message under the same
key pair. -/
def ecdsaSigBytes (pk : Nat) (message : String) : List Nat :=
  natBytes pk ++ strBytes message

/-- `sign_message` of `crypto.py`: a DER-serialized ECDSA signature over the
message, produced with the private key. -/
def sign_message (private_key : PrivateKey) (message : String) : List Nat :=
  ecdsaSigBytes private_key.pubkey.pk message

/-- `verify_signature` of `crypto.py`: deserializes the signature and
verifies it against the message under the public key. -/
def verify_signature (public_key : PublicKey) (message : String)
    (signature : List Nat) : Bool :=
  signature == ecdsaSigBytes public_key.pk message

theorem strBytesL_lt (cs : List Char) : ∀ x ∈ strBytesL cs, x < 256 := by
  induction cs with
  | nil => intro x hx; simp [strBytesL] at hx
  | cons c cs ih =>
    intro x hx
    simp only [strBytesL, List.mem_cons] at hx
    rcases hx with rfl | rfl | rfl | hx
    · exact Nat.mod_lt _ (by norm_num)
    · exact Nat.mod_lt _ (by norm_num)
    · exact Nat.mod_lt _ (by norm_num)
    · exact ih x hx

theorem sign_message_bytes_lt (k : PrivateKey) (message : String) :
    ∀ x ∈ sign_message k message, x < 256 := by
  intro x hx
  simp only [sign_message, ecdsaSigBytes, List.mem_append] at hx
  rcases hx with hx | hx
  · simp only [natBytes, List.mem_map] at hx
    obtain ⟨i, _, rfl⟩ := hx
    exact Nat.mod_lt _ (by norm_num)
  · exact strBytesL_lt _ x hx

/-! ## The signed response envelope (`SignedChatCompletion` and the signing
tail of the non-streaming handler) -/

structure Source where
  source : String
  content : String
deriving DecidableEq, Repr

/-- One choice of the completion, as serialized. -/
structure ChoiceM where
  index : Int
  role : String
  content : Option String
deriving DecidableEq, Repr

/-- `SignedChatCompletion`: the OpenAI-shaped completion extended with the
in-band `signature` and optional `sources`. -/
structure SignedChatCompletion where
  id : String
  object : String
  created : Int
  model : String
  choices : List ChoiceM
  usage : Option LUsage
  signature : String
  sources : Option (List Source)
deriving DecidableEq, Repr

def jsonStr (s : String) : String := "\"" ++ s ++ "\""

def jsonOpt {α : Type} (f : α → String) : Option α → String
  | none => "null"
  | some a => f a

def jsonObj (fields : List (String × String)) : String :=
  "\x7b" ++ String.intercalate "," (fields.map (fun f => jsonStr f.1 ++ ":" ++ f.2)) ++
    "\x7d"

def jsonArr (items : List String) : String :=
  "[" ++ String.intercalate "," items ++ "]"

def LUsage.dumpJson (u : LUsage) : String :=
  jsonObj [("prompt_tokens", toString u.prompt_tokens),
           ("completion_tokens", toString u.completion_tokens),
           ("total_tokens", toString u.total_tokens)]

def ChoiceM.dumpJson (c : ChoiceM) : String :=
  jsonObj [("index", toString c.index),
           ("message", jsonObj [("role", jsonStr c.role),
                                ("content", jsonOpt jsonStr c.content)])]

def Source.dumpJson (s : Source) : String :=
  jsonObj [("source", jsonStr s.source), ("content", jsonStr s.content)]

/-- `model_dump_json`: the canonical JSON serialization of the response, in
the field order of the response shape, with the `signature` field in-band. -/
def SignedChatCompletion.model_dump_json (r : SignedChatCompletion) : String :=
  jsonObj [("id", jsonStr r.id),
           ("object", jsonStr r.object),
           ("created", toString r.created),
           ("model", jsonStr r.model),
           ("choices", jsonArr (r.choices.map ChoiceM.dumpJson)),
           ("usage", jsonOpt LUsage.dumpJson r.usage),
           ("signature", jsonStr r.signature),
           ("sources", jsonOpt (fun ss => jsonArr (ss.map Source.dumpJson)) r.sources)]

/-- The signing tail of the non-streaming `chat_completion` handler: the
response is assembled with `signature=""`, serialized with
`model_dump_json`, signed with the service key, and the base64-encoded
signature stored in the `signature` field. -/
def sign_response (private_key : PrivateKey) (resp : SignedChatCompletion) :
    SignedChatCompletion :=
  let model_response := { resp with signature := "" }
  let response_json := model_response.model_dump_json
  let signature := sign_message private_key response_json
  { model_response with signature := b64encode signature }

/-- C2: for every `SignedChatCompletion` S returned by the non-streaming
handler, base64-decoding `S.signature` succeeds and verifying the canonical
JSON serialization of S with its `signature` field set to the empty string,
against the decoded bytes and the service's public key, returns true. -/
theorem C2_sign_then_verify (private_key : PrivateKey) (resp : SignedChatCompletion) :
    ∃ sig : List Nat,
      b64decode (sign_response private_key resp).signature = some sig ∧
      verify_signature private_key.pubkey
        (SignedChatCompletion.model_dump_json
          { sign_response private_key resp with signature := "" }) sig = true := by
  refine ⟨sign_message private_key
    (SignedChatCompletion.model_dump_json { resp with signature := "" }), ?_, ?_⟩
  · exact b64decode_b64encode _ (sign_message_bytes_lt _ _)
  · have hresp : ({ sign_response private_key resp with signature := "" } :
        SignedChatCompletion) = { resp with signature := "" } := rfl
    simp only [verify_signature, sign_message, hresp]
    exact beq_self_eq_true _

end NilAI
